import Mathlib

/-!
Verification development for the `abipy.eph.varpeq` module (post-processing of
polaron VARPEQ calculations).

The Python module is shallowly embedded: numpy arrays become nested lists or
explicit functions on index triples, complex numbers become pairs of rationals,
Python exceptions become an explicit error type, and methods that can raise
return `Except`.  Collaborators of the module that belong to the repository but
are outside the file under study (the k-point index mapping, the regular-grid
interpolator, numpy's polynomial fit, the notebook writer, the robot's sorting
helper, unit-conversion constants) are modelled from the specification; each
such definition carries a doc comment saying so.
-/

namespace Varpeq

/-- Complex numbers are modelled as pairs (re, im) of rationals. -/
abbrev Cplx := ℚ × ℚ

/-- Index triple into a three-dimensional mesh box. -/
abbrev Idx3 := ℕ × ℕ × ℕ

/-- Squared modulus of a complex value, i.e. numpy `abs(z)**2`. -/
def cmod2 (z : Cplx) : ℚ := z.1 * z.1 + z.2 * z.2

/-- Product of the three mesh divisions, i.e. `np.prod(ngkpt)`. -/
def prod3 (g : Idx3) : ℕ := g.1 * g.2.1 * g.2.2

/-- Python exceptions that the embedded methods can raise. -/
inductive PyErr where
  | nameError (n : String)
  | attrError (n : String)
  | valueError (m : String)
deriving DecidableEq

/-- True iff the raised exception is a `NameError`. -/
def PyErr.isNameError : PyErr → Bool
  | .nameError _ => true
  | _ => false

/-- True iff the computation ended with a `NameError`. -/
def raisesNameError {α : Type} (e : Except PyErr α) : Bool :=
  match e with
  | .error err => err.isNameError
  | .ok _ => false

/-- State read from the VARPEQ.nc file by `VarpeqReader.__init__`.
Raw netcdf variables are nested lists following the file schema
(`nstep2cv(nsppol)`, `iter_rec(nsppol, nstep, six)`, `kpts_spin(nsppol, max_nk,
three)`, `qpts_spin(nsppol, max_nq, three)`, `a_spin(nsppol, max_nk, max_nb)`,
`b_spin(nsppol, max_nq, natom3)`); `brange_spin_raw` holds the Fortran 1-based
band ranges as stored in the file.  The fields `mpdivs`, `kshifts` and
`ebands_nsppol` model the k-sampling and spin count of the external ebands
object, and `natom` the atom count of the external structure object. -/
structure VarpeqReader where
  nsppol : ℕ
  nstep2cv : List ℕ
  iter_rec : List (List (List ℚ))
  nk_spin : List ℕ
  nq_spin : List ℕ
  brange_spin_raw : List (ℕ × ℕ)
  kpts_spin : List (List (List ℚ))
  qpts_spin : List (List (List ℚ))
  a_spin : List (List (List Cplx))
  b_spin : List (List (List Cplx))
  ngqpt : Idx3
  natom : ℕ
  varpeq_pkind : String
  ebands_nsppol : ℕ
  mpdivs : Option Idx3
  kshifts : List (List ℚ)
deriving Inhabited, DecidableEq

/-- `brange_spin` after the Fortran to C conversion performed in
`VarpeqReader.__init__`: the first column is decremented by one. -/
def VarpeqReader.brange_spin (r : VarpeqReader) : List (ℕ × ℕ) :=
  r.brange_spin_raw.map (fun ab => (ab.1 - 1, ab.2))

/-- `nb_spin = brange_spin[:, 1] - brange_spin[:, 0]`. -/
def VarpeqReader.nb_spin (r : VarpeqReader) : List ℕ :=
  r.brange_spin.map (fun ab => ab.2 - ab.1)

/-- The `Polaron` dataclass: polaron coefficients A_kn, B_qnu for one spin. -/
structure Polaron where
  spin : ℕ
  nb : ℕ
  nk : ℕ
  nq : ℕ
  bstart : ℕ
  bstop : ℕ
  kpoints : List (List ℚ)
  qpoints : List (List ℚ)
  a_kn : List (List Cplx)
  b_qnu : List (List Cplx)
  varpeq : VarpeqReader
deriving Inhabited, DecidableEq

/-- `Polaron.from_varpeq`: slices the per-spin blocks out of the raw file
arrays (`[spin, :nk]`, `[spin, :nk, :nb]`, `[spin, :nq]`; numpy slicing clamps
at the array bounds exactly as `List.take` does). -/
def Polaron.from_varpeq (r : VarpeqReader) (spin : ℕ) : Polaron :=
  { spin := spin
    nb := r.nb_spin.getD spin 0
    nk := r.nk_spin.getD spin 0
    nq := r.nq_spin.getD spin 0
    bstart := (r.brange_spin.getD spin (0, 0)).1
    bstop := (r.brange_spin.getD spin (0, 0)).2
    kpoints := (r.kpts_spin.getD spin []).take (r.nk_spin.getD spin 0)
    qpoints := (r.qpts_spin.getD spin []).take (r.nq_spin.getD spin 0)
    a_kn := ((r.a_spin.getD spin []).take (r.nk_spin.getD spin 0)).map
              (fun row => row.take (r.nb_spin.getD spin 0))
    b_qnu := (r.b_spin.getD spin []).take (r.nq_spin.getD spin 0)
    varpeq := r }

/-- `VarpeqFile.polaron_spin`: one `Polaron` per spin. -/
def polaron_spin (r : VarpeqReader) : List Polaron :=
  (List.range r.nsppol).map (fun spin => Polaron.from_varpeq r spin)

/-- `Polaron.ngkpt_and_shifts`: raises `ValueError` for non diagonal k-meshes
(`mpdivs is None`) or when more than one shift is present. -/
def Polaron.ngkpt_and_shifts (p : Polaron) : Except PyErr (Idx3 × List (List ℚ)) :=
  match p.varpeq.mpdivs with
  | none => .error (.valueError "Non diagonal k-meshes are not supported!")
  | some g =>
      if p.varpeq.kshifts.length > 1 then
        .error (.valueError "Multiple k-shifts are not supported!")
      else
        .ok (g, p.varpeq.kshifts)

/-- Wrap a fractional coordinate onto the mesh: `floor(x * n) mod n`. -/
def wrapIndex (x : ℚ) (n : ℕ) : ℕ := (Rat.floor (x * n) % (n : ℤ)).toNat

/-- Modelled from the spec: `kpoints_indices` (from `abipy.core.kpoints`, not
under `src/`) maps each fractional k-point to its integer index triple on the
regular `ngkpt` mesh — the "index scatter" mapping of the spec. -/
def kpt_index (g : Idx3) (row : List ℚ) : Idx3 :=
  (wrapIndex (row.getD 0 0) g.1, wrapIndex (row.getD 1 0) g.2.1,
    wrapIndex (row.getD 2 0) g.2.2)

/-- Modelled from the spec: the list of grid indices of a list of k-points. -/
def kpoints_indices (kpoints : List (List ℚ)) (g : Idx3) : List Idx3 :=
  kpoints.map (kpt_index g)

/-- The scatter loop `for v, inds in zip(col, indices): data[inds] = v`,
expressed as a left fold of pointwise updates (last write wins). -/
def scatterUpd (init : Idx3 → Cplx) (ps : List (Idx3 × Cplx)) : Idx3 → Cplx :=
  ps.foldl (fun f pr => Function.update f pr.1 pr.2) init

/-- Column `ib` of a 2d array stored as a list of rows: `arr[:, ib]`. -/
def column (arr : List (List Cplx)) (ib : ℕ) : List Cplx :=
  arr.map (fun row => row.getD ib (0, 0))

/-- The contents of the box filled by `insert_a_inbox`, as a function of the
band index and the cell: start from the fill value (or from the arbitrary
`junk` contents that `np.empty` returns when `fill_value is None`) and scatter
column `ib` of `a_kn` onto the k-point grid indices. -/
def insert_a_fun (p : Polaron) (junk : ℕ → Idx3 → Cplx) (fill : Option Cplx)
    (g : Idx3) (ib : ℕ) : Idx3 → Cplx :=
  scatterUpd (match fill with | none => junk ib | some c => fun _ => c)
    ((kpoints_indices p.kpoints g).zip (column p.a_kn ib))

/-- Materialize a box of shape `(nb, nx, ny, nz)` as nested lists. -/
def mkBox (nb : ℕ) (g : Idx3) (f : ℕ → Idx3 → Cplx) :
    List (List (List (List Cplx))) :=
  (List.range nb).map fun ib =>
    (List.range g.1).map fun ix =>
      (List.range g.2.1).map fun iy =>
        (List.range g.2.2).map fun iz => f ib (ix, iy, iz)

/-- Read one cell of a nested-list box (out-of-range indices give defaults). -/
def boxGet (box : List (List (List (List Cplx)))) (ib : ℕ) (cell : Idx3) : Cplx :=
  (((box.getD ib []).getD cell.1 []).getD cell.2.1 []).getD cell.2.2 (0, 0)

/-- `Polaron.insert_a_inbox`: needs the k-mesh from `ngkpt_and_shifts` (which
can raise), then returns the scattered box together with `ngkpt, shifts`. -/
def Polaron.insert_a_inbox (p : Polaron) (junk : ℕ → Idx3 → Cplx)
    (fill : Option Cplx) :
    Except PyErr (List (List (List (List Cplx))) × Idx3 × List (List ℚ)) := do
  let (g, sh) ← p.ngkpt_and_shifts
  pure (mkBox p.nb g (insert_a_fun p junk fill g), g, sh)

/-- The contents of the box filled by `insert_b_inbox`, as a function of the
mode index `nu` and the cell. -/
def insert_b_fun (p : Polaron) (junk : ℕ → Idx3 → Cplx) (fill : Option Cplx)
    (nu : ℕ) : Idx3 → Cplx :=
  scatterUpd (match fill with | none => junk nu | some c => fun _ => c)
    ((kpoints_indices p.qpoints p.varpeq.ngqpt).zip (column p.b_qnu nu))

/-- `Polaron.insert_b_inbox`: the q-mesh is `ngqpt` (always Gamma-centered,
`shifts = [0, 0, 0]`), the first box dimension is `natom3 = 3 * len(structure)`.
No exception can be raised on this path. -/
def Polaron.insert_b_inbox (p : Polaron) (junk : ℕ → Idx3 → Cplx)
    (fill : Option Cplx) :
    List (List (List (List Cplx))) × Idx3 × List ℚ :=
  (mkBox (3 * p.varpeq.natom) p.varpeq.ngqpt (insert_b_fun p junk fill),
    p.varpeq.ngqpt, [0, 0, 0])

/-- Modelled from the spec: `BzRegularGridInterpolator` (from
`abipy.tools.numtools`, not under `src/`) is a regular-grid interpolator built
from per-state data on the `ngkpt` mesh; evaluated at a mesh point it returns
the stored grid value of that cell, and it can be evaluated at arbitrary
fractional points. -/
structure BzRegularGridInterpolator where
  nb : ℕ
  ngkpt : Idx3
  grid : ℕ → Idx3 → ℚ

/-- Modelled from the spec: evaluating the interpolator at a fractional point
returns, for each of the `nb` states, the grid value of the cell the point
falls in; total on arbitrary points. -/
def BzRegularGridInterpolator.eval_kpoint (itp : BzRegularGridInterpolator)
    (k : List ℚ) : List ℚ :=
  (List.range itp.nb).map fun ib => itp.grid ib (kpt_index itp.ngkpt k)

/-- `Polaron.get_a2_interpolator`: interpolator over `np.abs(a_data)**2` of
the box produced by `insert_a_inbox()` (with the default `fill_value=None`,
hence over the `junk` contents on unwritten cells). -/
def Polaron.get_a2_interpolator (p : Polaron) (junk : ℕ → Idx3 → Cplx) :
    Except PyErr BzRegularGridInterpolator := do
  let (g, _sh) ← p.ngkpt_and_shifts
  pure { nb := p.nb, ngkpt := g,
         grid := fun ib cell => cmod2 (insert_a_fun p junk none g ib cell) }

/-- `Polaron.get_b2_interpolator`: interpolator over `np.abs(b_data)**2` of
the box produced by `insert_b_inbox()` (default `fill_value=None`). -/
def Polaron.get_b2_interpolator (p : Polaron) (junk : ℕ → Idx3 → Cplx) :
    BzRegularGridInterpolator :=
  { nb := 3 * p.varpeq.natom, ngkpt := p.varpeq.ngqpt,
    grid := fun nu cell => cmod2 (insert_b_fun p junk none nu cell) }

/-- Elementwise squared modulus of a nested-list box: `np.abs(data)**2`. -/
def boxAbs2 (box : List (List (List (List Cplx)))) : List (List (List (List ℚ))) :=
  box.map (fun a => a.map (fun b => b.map (fun c => c.map cmod2)))

/-- Sum of all entries of a squared box (used by the `mean` in the writers). -/
def boxSum (box : List (List (List (List ℚ)))) : ℚ :=
  (box.map (fun a => (a.map (fun b => (b.map (fun c => c.sum)).sum)).sum)).sum

/-- `Polaron.write_a2_bxsf`: computes the filled box, `nkbz`, `a2_data` and
`fermie`, then evaluates the unbound name `num_states` in the argument list of
`bxsf_write`, raising `NameError` before the write happens.  The first
component of the result is the list of files written. -/
def Polaron.write_a2_bxsf (p : Polaron) (junk : ℕ → Idx3 → Cplx)
    (filepath : String) : List String × Except PyErr Unit :=
  match p.insert_a_inbox junk (some (0, 0)) with
  | .error e => ([], .error e)
  | .ok (a_data, ngkpt, _shifts) =>
      let _nkbz := prod3 ngkpt
      let _a2_data := boxAbs2 a_data
      let _fermie := boxSum _a2_data / (p.nb * prod3 ngkpt : ℚ)
      ([], .error (.nameError "num_states"))

/-- `Polaron.write_b2_bxsf`: computes the filled box, then evaluates
`np.product(nqkpt)` where `nqkpt` is an unbound name, raising `NameError`
before anything is written. -/
def Polaron.write_b2_bxsf (p : Polaron) (junk : ℕ → Idx3 → Cplx)
    (filepath : String) : List String × Except PyErr Unit :=
  match p.insert_b_inbox junk (some (0, 0)) with
  | (_b_data, _ngqpt, _shifts) => ([], .error (.nameError "nqkpt"))

/-- Modelled from the spec: the Hartree-to-eV conversion factor
`abu.Ha_eV` (from `abipy.core.abinit_units`, not under `src/`). -/
def Ha_eV : ℚ := 27.2113845

/-- The five energy entries of `_ALL_ENTRIES`, in declaration order. -/
def entryNames : List String := ["E_pol", "E_el", "E_ph", "elph", "epsilon"]

/-- `VarpeqFile.get_last_iteration_dict_ev`: zips the five entry names with
the convergence record `iter_rec[spin, nstep2cv[spin] - 1, :] * abu.Ha_eV`
(the Python `dict(zip(...))`, which truncates to the five keys). -/
def get_last_iteration_dict_ev (r : VarpeqReader) (spin : ℕ) :
    List (String × ℚ) :=
  let nstep2cv := r.nstep2cv.getD spin 0
  let last_iteration :=
    ((r.iter_rec.getD spin []).getD (nstep2cv - 1) []).map (fun v => v * Ha_eV)
  entryNames.zip last_iteration

/-- `VarpeqFile.get_title_spin`: when `ebands.nsppol != 1` the f-string
evaluates `self.spin`, an attribute `VarpeqFile` does not have
(`AttributeError`); otherwise the branch on the unbound local name `with_gaps`
raises `NameError`.  The returns (which would use the external
`get_gaps_string`) are unreachable. -/
def get_title_spin (r : VarpeqReader) (spin : ℕ) : Except PyErr String := do
  let pre ← if r.ebands_nsppol = 1 then Except.ok ""
            else Except.error (PyErr.attrError "spin")
  let with_gaps ← (Except.error (PyErr.nameError "with_gaps") : Except PyErr Bool)
  if !with_gaps then
    Except.ok (pre ++ r.varpeq_pkind)
  else
    Except.ok (pre ++ r.varpeq_pkind ++ ", " ++ "gaps")

/-- `VarpeqFile.plot_scf_cycle`: for each spin the grid/legend call evaluates
`self.get_title_spin(spin)`; the external matplotlib calls, which do not
raise, are elided. -/
def plot_scf_cycle (r : VarpeqReader) : Except PyErr Unit :=
  (List.range r.nsppol).forM (fun spin => do
    let _title ← get_title_spin r spin
    pure ())

/-- Modelled from the spec: `_write_nb_nbpath` (from the `NotebookWriter`
mixin, not under `src/`) writes the notebook to `nbpath` and returns the path;
the first component is the list of files written. -/
def write_nb_nbpath (nbpath : String) : List String × String :=
  ([nbpath], nbpath)

/-- `VarpeqFile.write_notebook`: builds the notebook cells and delegates the
write to `_write_nb_nbpath`. -/
def file_write_notebook (r : VarpeqReader) (nbpath : String) :
    List String × String :=
  write_nb_nbpath nbpath

/-- One VARPEQ file held by a `VarpeqRobot`: its reader state plus the cube
root of the lattice volume of the external structure object (modelled from the
spec, used in `x = 1 / (nk_tot * volume ** (1/3))`). -/
structure AbiFile where
  r : VarpeqReader
  cbrt_vol : ℚ
deriving Inhabited, DecidableEq

/-- The robot's `sort_func`: `np.prod(ksampling.mpdivs)`. -/
def sort_key (f : AbiFile) : ℕ :=
  match f.r.mpdivs with
  | some g => prod3 g
  | none => 0

/-- `VarpeqRobot.write_notebook`: delegates to `_write_nb_nbpath`. -/
def robot_write_notebook (robot : List AbiFile) (nbpath : String) :
    List String × String :=
  write_nb_nbpath nbpath

instance : DecidableRel (fun a b : AbiFile => sort_key b ≤ sort_key a) :=
  fun _ _ => Nat.decLe _ _

instance : IsTotal AbiFile (fun a b => sort_key b ≤ sort_key a) :=
  ⟨fun a b => (le_total (sort_key b) (sort_key a)).imp id id⟩

instance : IsTrans AbiFile (fun a b => sort_key b ≤ sort_key a) :=
  ⟨fun _ _ _ hab hbc => le_trans hbc hab⟩

/-- Modelled from the spec: `Robot.sortby(sort_func, reverse=True)` (from
`abipy.abio.robots`, not under `src/`) returns the robot's files sorted by
decreasing `sort_func` value (a stable sort). -/
def sortFiles (fs : List AbiFile) : List AbiFile :=
  fs.insertionSort (fun a b => sort_key b ≤ sort_key a)

/-- One energy entry of `VarpeqRobot.get_kdata_spin`: the per-file values of
`get_last_iteration_dict_ev(spin)[name]`, in sorted file order. -/
def kdata_entry (robot : List AbiFile) (spin : ℕ) (name : String) : List ℚ :=
  (sortFiles robot).map
    (fun f => ((get_last_iteration_dict_ev f.r spin).lookup name).getD 0)

/-- The `ngkpt` entry of `get_kdata_spin`. -/
def kdata_ngkpt (robot : List AbiFile) : List Idx3 :=
  (sortFiles robot).map (fun f => f.r.mpdivs.getD (0, 0, 0))

/-- The `nk_tot` entry of `get_kdata_spin`: `np.prod(ngkpt)` per file. -/
def kdata_nk_tot (robot : List AbiFile) : List ℕ :=
  (sortFiles robot).map sort_key

/-- The `xs_inv_bohr` entry of `get_kdata_spin`:
`1 / (nk_tot * volume ** (1/3))` per file. -/
def kdata_xs (robot : List AbiFile) : List ℚ :=
  (sortFiles robot).map (fun f => 1 / ((sort_key f : ℚ) * f.cbrt_vol))

/-- Modelled from the spec: `np.polyfit(xs, ys, deg=1)` (numpy is an external
collaborator) is the degree-1 least-squares fit; in slope-intercept form the
normal equations give this closed formula. -/
def polyfit1 (xs ys : List ℚ) : ℚ × ℚ :=
  let n : ℚ := xs.length
  let sx := xs.sum
  let sxx := (xs.map (fun x => x * x)).sum
  let sy := ys.sum
  let sxy := ((xs.zip ys).map (fun xy => xy.1 * xy.2)).sum
  let den := n * sxx - sx * sx
  ((n * sxy - sx * sy) / den, (sxx * sy - sx * sxy) / den)

/-- Evaluation of a degree-1 polynomial `(slope, intercept)` at `x`. -/
def polyval1 (sp : ℚ × ℚ) (x : ℚ) : ℚ := sp.1 * x + sp.2

/-- One column of `VarpeqRobot.get_makov_payne_df_spin`: for
`nn in range(1, len(xs))`, the value at 0 of the degree-1 fit through the
first `nn + 1` points. -/
def makov_payne_col (robot : List AbiFile) (spin : ℕ) (name : String) : List ℚ :=
  let xs := kdata_xs robot
  let ys := kdata_entry robot spin name
  (List.range' 1 (xs.length - 1)).map
    (fun nn => polyval1 (polyfit1 (xs.take (nn + 1)) (ys.take (nn + 1))) 0)

/-- The index of the dataframe of `get_makov_payne_df_spin`:
`list(i + 1 for i in range(1, len(xs)))`. -/
def makov_payne_index (robot : List AbiFile) : List ℕ :=
  (List.range' 1 ((kdata_xs robot).length - 1)).map (fun i => i + 1)

/-- The name given to the dataframe index: `df.index.name = 'npts'`. -/
def makov_payne_index_name : String := "npts"

/-! Helper lemmas about the scatter fold and the box construction. -/

theorem scatterUpd_append_singleton (init : Idx3 → Cplx)
    (ps : List (Idx3 × Cplx)) (pr : Idx3 × Cplx) :
    scatterUpd init (ps ++ [pr]) =
      Function.update (scatterUpd init ps) pr.1 pr.2 := by
  simp [scatterUpd, List.foldl_append]

theorem scatterUpd_no_hit (init : Idx3 → Cplx) (ps : List (Idx3 × Cplx))
    (c : Idx3) (h : ∀ pq ∈ ps, pq.1 ≠ c) :
    scatterUpd init ps c = init c := by
  induction ps using List.reverseRecOn with
  | nil => rfl
  | append_singleton ps pr ih =>
      rw [scatterUpd_append_singleton]
      rw [Function.update_noteq]
      · exact ih (fun pq hpq => h pq (by simp [hpq]))
      · exact fun hc => h pr (by simp) hc.symm

theorem scatterUpd_last_hit (init : Idx3 → Cplx) (ps : List (Idx3 × Cplx))
    (c : Idx3) (i : ℕ) (hi : i < ps.length) (hhit : (ps.get ⟨i, hi⟩).1 = c)
    (hlast : ∀ j (hj : j < ps.length), i < j → (ps.get ⟨j, hj⟩).1 ≠ c) :
    scatterUpd init ps c = (ps.get ⟨i, hi⟩).2 := by
  induction ps using List.reverseRecOn with
  | nil => exact absurd hi (by simp)
  | append_singleton ps pr ih =>
      rw [scatterUpd_append_singleton]
      rcases Nat.lt_or_ge i ps.length with hlt | hge
      · have hpr : pr.1 ≠ c := by
          have := hlast ps.length (by simp) hlt
          simpa using this
        rw [Function.update_noteq (fun hc => hpr hc.symm)]
        have hget : (ps ++ [pr]).get ⟨i, hi⟩ = ps.get ⟨i, hlt⟩ := by
          simp [List.getElem_append_left, hlt]
        rw [hget] at hhit ⊢
        exact ih hlt hhit (fun j hj hij => by
          have := hlast j (by simp; omega) hij
          simpa [List.getElem_append_left, hj] using this)
      · have hieq : i = ps.length := by
          have hlen : (ps ++ [pr]).length = ps.length + 1 := by simp
          omega
        subst hieq
        have hget : (ps ++ [pr]).get ⟨ps.length, hi⟩ = pr := by
          simp
        rw [hget] at hhit ⊢
        rw [← hhit, Function.update_same]

theorem getD_map_range {α : Type} (n : ℕ) (f : ℕ → α) (i : ℕ) (d : α)
    (h : i < n) : ((List.range n).map f).getD i d = f i := by
  rw [List.getD_eq_getElem _ _ (by simpa using h)]
  simp

theorem length_mkBox (nb : ℕ) (g : Idx3) (f : ℕ → Idx3 → Cplx) :
    (mkBox nb g f).length = nb := by
  simp [mkBox]

theorem shape_mkBox (nb : ℕ) (g : Idx3) (f : ℕ → Idx3 → Cplx) :
    ∀ a ∈ mkBox nb g f, a.length = g.1 ∧
      ∀ b ∈ a, b.length = g.2.1 ∧ ∀ c ∈ b, c.length = g.2.2 := by
  intro a ha
  simp only [mkBox, List.mem_map, List.mem_range] at ha
  obtain ⟨ib, _, rfl⟩ := ha
  refine ⟨by simp, ?_⟩
  intro b hb
  simp only [List.mem_map, List.mem_range] at hb
  obtain ⟨ix, _, rfl⟩ := hb
  refine ⟨by simp, ?_⟩
  intro c hc
  simp only [List.mem_map, List.mem_range] at hc
  obtain ⟨iy, _, rfl⟩ := hc
  simp

theorem boxGet_mkBox (nb : ℕ) (g : Idx3) (f : ℕ → Idx3 → Cplx) (ib : ℕ)
    (cell : Idx3) (h1 : ib < nb) (h2 : cell.1 < g.1) (h3 : cell.2.1 < g.2.1)
    (h4 : cell.2.2 < g.2.2) : boxGet (mkBox nb g f) ib cell = f ib cell := by
  obtain ⟨ix, iy, iz⟩ := cell
  simp only [boxGet, mkBox]
  rw [getD_map_range _ _ _ _ h1, getD_map_range _ _ _ _ h2,
    getD_map_range _ _ _ _ h3, getD_map_range _ _ _ _ h4]

theorem wrapIndex_lt (x : ℚ) (n : ℕ) (hn : 0 < n) : wrapIndex x n < n := by
  have h1 : 0 ≤ Rat.floor (x * n) % (n : ℤ) :=
    Int.emod_nonneg _ (by exact_mod_cast hn.ne')
  have h2 : Rat.floor (x * n) % (n : ℤ) < (n : ℤ) :=
    Int.emod_lt_of_pos _ (by exact_mod_cast hn)
  unfold wrapIndex
  omega

theorem scatter_points_no_hit (init : Idx3 → Cplx) (K : List (List ℚ))
    (A : List (List Cplx)) (g : Idx3) (ib : ℕ) (cell : Idx3)
    (h : ∀ ik (hik : ik < K.length), kpt_index g (K.get ⟨ik, hik⟩) ≠ cell) :
    scatterUpd init ((kpoints_indices K g).zip (column A ib)) cell = init cell := by
  apply scatterUpd_no_hit
  intro pq hpq
  have h1 : pq.1 ∈ kpoints_indices K g := (List.of_mem_zip hpq).1
  simp only [kpoints_indices, List.mem_map] at h1
  obtain ⟨row, hrow, hrow_eq⟩ := h1
  obtain ⟨⟨ik, hik⟩, rfl⟩ := List.mem_iff_get.mp hrow
  rw [← hrow_eq]
  exact h ik hik

theorem scatter_points_last_hit (init : Idx3 → Cplx) (K : List (List ℚ))
    (A : List (List Cplx)) (g : Idx3) (ib : ℕ) (cell : Idx3) (ik : ℕ)
    (hik : ik < K.length) (hlen : K.length = A.length)
    (hhit : kpt_index g (K.get ⟨ik, hik⟩) = cell)
    (hlast : ∀ jk (hjk : jk < K.length), ik < jk →
      kpt_index g (K.get ⟨jk, hjk⟩) ≠ cell) :
    scatterUpd init ((kpoints_indices K g).zip (column A ib)) cell =
      (A.get ⟨ik, hlen ▸ hik⟩).getD ib (0, 0) := by
  have hzlen : ((kpoints_indices K g).zip (column A ib)).length = K.length := by
    simp [kpoints_indices, column, List.length_zip, ← hlen]
  have hik' : ik < ((kpoints_indices K g).zip (column A ib)).length := by
    rw [hzlen]; exact hik
  have hget : ∀ (j : ℕ) (hj : j < ((kpoints_indices K g).zip (column A ib)).length),
      ((kpoints_indices K g).zip (column A ib)).get ⟨j, hj⟩ =
        (kpt_index g (K.get ⟨j, by rw [hzlen] at hj; exact hj⟩),
         (A.get ⟨j, by rw [hzlen] at hj; omega⟩).getD ib (0, 0)) := by
    intro j hj
    have hj1 : j < K.length := by rw [hzlen] at hj; exact hj
    have hj2 : j < A.length := by omega
    simp [List.getElem_zip, kpoints_indices, column]
  rw [scatterUpd_last_hit init _ cell ik hik'
    (by rw [hget ik hik']; exact hhit)
    (fun j hj hij => by
      rw [hget j hj]
      intro hc
      have hj1 : j < K.length := by rw [hzlen] at hj; exact hj
      exact hlast j hj1 hij hc)]
  rw [hget ik hik']

/-- Shape of a nested-list box: `(nb, nx, ny, nz)`. -/
def BoxShape (box : List (List (List (List Cplx)))) (nb : ℕ) (g : Idx3) : Prop :=
  box.length = nb ∧ ∀ a ∈ box, a.length = g.1 ∧
    ∀ b ∈ a, b.length = g.2.1 ∧ ∀ cc ∈ b, cc.length = g.2.2

/-- Point number `ik` is the last point of `K` whose grid index is `cell`. -/
def LastHitAt (K : List (List ℚ)) (g : Idx3) (ik : ℕ) (cell : Idx3) : Prop :=
  ∃ hik : ik < K.length, kpt_index g (K.get ⟨ik, hik⟩) = cell ∧
    ∀ jk (hjk : jk < K.length), ik < jk → kpt_index g (K.get ⟨jk, hjk⟩) ≠ cell

/-- No point of `K` has grid index `cell`. -/
def NoHit (K : List (List ℚ)) (g : Idx3) (cell : Idx3) : Prop :=
  ∀ ik (hik : ik < K.length), kpt_index g (K.get ⟨ik, hik⟩) ≠ cell

/-- C1: for every Polaron whose k-points all map to valid indices of the
nx*ny*nz k-mesh box (third and fourth clauses), `insert_a_inbox` with a
non-None fill value `c` returns a box of shape (nb, nx, ny, nz) in which cell
(ib, ix, iy, iz) holds `a_kn[ik, ib]` for the last k-point `ik` whose grid
index is (ix, iy, iz), and `c` on every cell not targeted by any k-point;
`insert_b_inbox` behaves the same way for `b_qnu` on the (3*natom, ngqpt) box
with shifts fixed to [0, 0, 0]. -/
theorem insert_inbox_last_write_spec
    (p : Polaron) (junk : ℕ → Idx3 → Cplx) (c : Cplx) (g : Idx3)
    (sh : List (List ℚ)) (hok : p.ngkpt_and_shifts = .ok (g, sh))
    (hg1 : 0 < g.1) (hg2 : 0 < g.2.1) (hg3 : 0 < g.2.2)
    (hq1 : 0 < p.varpeq.ngqpt.1) (hq2 : 0 < p.varpeq.ngqpt.2.1)
    (hq3 : 0 < p.varpeq.ngqpt.2.2)
    (hk : p.kpoints.length = p.nk) (ha : p.a_kn.length = p.nk)
    (hql : p.qpoints.length = p.nq) (hbl : p.b_qnu.length = p.nq) :
    ∃ boxA boxB,
      p.insert_a_inbox junk (some c) = .ok (boxA, g, sh) ∧
      p.insert_b_inbox junk (some c) =
        (boxB, p.varpeq.ngqpt, ([0, 0, 0] : List ℚ)) ∧
      (∀ row ∈ p.kpoints, (kpt_index g row).1 < g.1 ∧
        (kpt_index g row).2.1 < g.2.1 ∧ (kpt_index g row).2.2 < g.2.2) ∧
      (∀ row ∈ p.qpoints,
        (kpt_index p.varpeq.ngqpt row).1 < p.varpeq.ngqpt.1 ∧
        (kpt_index p.varpeq.ngqpt row).2.1 < p.varpeq.ngqpt.2.1 ∧
        (kpt_index p.varpeq.ngqpt row).2.2 < p.varpeq.ngqpt.2.2) ∧
      BoxShape boxA p.nb g ∧
      BoxShape boxB (3 * p.varpeq.natom) p.varpeq.ngqpt ∧
      (∀ ib, ib < p.nb → ∀ cell : Idx3, cell.1 < g.1 → cell.2.1 < g.2.1 →
        cell.2.2 < g.2.2 →
        (∀ ik, LastHitAt p.kpoints g ik cell →
          boxGet boxA ib cell = (p.a_kn.getD ik []).getD ib (0, 0)) ∧
        (NoHit p.kpoints g cell → boxGet boxA ib cell = c)) ∧
      (∀ nu, nu < 3 * p.varpeq.natom → ∀ cell : Idx3,
        cell.1 < p.varpeq.ngqpt.1 → cell.2.1 < p.varpeq.ngqpt.2.1 →
        cell.2.2 < p.varpeq.ngqpt.2.2 →
        (∀ iq, LastHitAt p.qpoints p.varpeq.ngqpt iq cell →
          boxGet boxB nu cell = (p.b_qnu.getD iq []).getD nu (0, 0)) ∧
        (NoHit p.qpoints p.varpeq.ngqpt cell → boxGet boxB nu cell = c)) := by
  refine ⟨mkBox p.nb g (insert_a_fun p junk (some c) g),
    mkBox (3 * p.varpeq.natom) p.varpeq.ngqpt (insert_b_fun p junk (some c)),
    ?_, rfl, ?_, ?_, ⟨length_mkBox _ _ _, shape_mkBox _ _ _⟩,
    ⟨length_mkBox _ _ _, shape_mkBox _ _ _⟩, ?_, ?_⟩
  · simp [Polaron.insert_a_inbox, hok]
  · exact fun row _ =>
      ⟨wrapIndex_lt _ _ hg1, wrapIndex_lt _ _ hg2, wrapIndex_lt _ _ hg3⟩
  · exact fun row _ =>
      ⟨wrapIndex_lt _ _ hq1, wrapIndex_lt _ _ hq2, wrapIndex_lt _ _ hq3⟩
  · intro ib hib cell h1 h2 h3
    constructor
    · intro ik hlhit
      obtain ⟨hik, hhit, hlast⟩ := hlhit
      rw [boxGet_mkBox _ _ _ _ _ hib h1 h2 h3]
      have hlen : p.kpoints.length = p.a_kn.length := hk.trans ha.symm
      have := scatter_points_last_hit (fun _ => c) p.kpoints p.a_kn g ib cell
        ik hik hlen hhit hlast
      simp only [insert_a_fun]
      rw [this]
      congr 1
      rw [List.getD_eq_getElem _ _ (hlen ▸ hik)]
      simp [List.get_eq_getElem]
    · intro hno
      rw [boxGet_mkBox _ _ _ _ _ hib h1 h2 h3]
      exact scatter_points_no_hit (fun _ => c) p.kpoints p.a_kn g ib cell hno
  · intro nu hnu cell h1 h2 h3
    constructor
    · intro iq hlhit
      obtain ⟨hiq, hhit, hlast⟩ := hlhit
      rw [boxGet_mkBox _ _ _ _ _ hnu h1 h2 h3]
      have hlen : p.qpoints.length = p.b_qnu.length := hql.trans hbl.symm
      have := scatter_points_last_hit (fun _ => c) p.qpoints p.b_qnu
        p.varpeq.ngqpt nu cell iq hiq hlen hhit hlast
      simp only [insert_b_fun]
      rw [this]
      congr 1
      rw [List.getD_eq_getElem _ _ (hlen ▸ hiq)]
      simp [List.get_eq_getElem]
    · intro hno
      rw [boxGet_mkBox _ _ _ _ _ hnu h1 h2 h3]
      exact scatter_points_no_hit (fun _ => c) p.qpoints p.b_qnu
        p.varpeq.ngqpt nu cell hno

/-- Arbitrary uninitialized-memory contents used for `np.empty`. -/
def junk0 : ℕ → Idx3 → Cplx := fun _ _ => (9, 9)

/-- A concrete well-formed reader state: one spin, a 2x1x1 k-mesh with one
stored k-point, a 1x1x1 q-mesh with one stored q-point, one band, one atom. -/
def r0 : VarpeqReader :=
  { nsppol := 1
    nstep2cv := [2]
    iter_rec := [[[1, 0, 0, 0, 0, 0], [2, 3, 4, 5, 6, 7]]]
    nk_spin := [1]
    nq_spin := [1]
    brange_spin_raw := [(1, 1)]
    kpts_spin := [[[0, 0, 0]]]
    qpts_spin := [[[0, 0, 0]]]
    a_spin := [[[(1, 0)]]]
    b_spin := [[[(3, 0), (0, 0), (0, 0)]]]
    ngqpt := (1, 1, 1)
    natom := 1
    varpeq_pkind := "electron"
    ebands_nsppol := 1
    mpdivs := some (2, 1, 1)
    kshifts := [[0, 0, 0]] }

/-- The polaron of `r0` for spin 0. -/
def p0 : Polaron := Polaron.from_varpeq r0 0

/-- Witness for C1: on `p0` the filled box holds the stored coefficient on
the targeted cell, the fill value on the untargeted cell, and the b-side box
comes with shifts [0, 0, 0]. -/
theorem insert_inbox_last_write_spec_witness :
    ∃ boxA boxB,
      p0.insert_a_inbox junk0 (some (5, 0)) =
        .ok (boxA, (2, 1, 1), [[0, 0, 0]]) ∧
      p0.insert_b_inbox junk0 (some (5, 0)) = (boxB, (1, 1, 1), [0, 0, 0]) ∧
      boxGet boxA 0 (0, 0, 0) = (1, 0) ∧
      boxGet boxA 0 (1, 0, 0) = (5, 0) ∧
      boxGet boxB 0 (0, 0, 0) = (3, 0) := by
  obtain ⟨boxA, boxB, hA, hB, _, _, _, _, hcA, hcB⟩ :=
    insert_inbox_last_write_spec p0 junk0 (5, 0) (2, 1, 1) [[0, 0, 0]]
      rfl (by with_unfolding_all decide) (by with_unfolding_all decide) (by with_unfolding_all decide) (by with_unfolding_all decide) (by with_unfolding_all decide)
      (by with_unfolding_all decide) (by with_unfolding_all decide) (by with_unfolding_all decide) (by with_unfolding_all decide) (by with_unfolding_all decide)
  refine ⟨boxA, boxB, hA, hB, ?_, ?_, ?_⟩
  · have h := (hcA 0 (by with_unfolding_all decide) (0, 0, 0) (by with_unfolding_all decide) (by with_unfolding_all decide)
      (by with_unfolding_all decide)).1 0
      ⟨by with_unfolding_all decide, by with_unfolding_all decide, fun jk hjk hlt => by
        have hl : p0.kpoints.length = 1 := rfl
        rw [hl] at hjk
        exact absurd hjk (by omega)⟩
    exact h.trans (by with_unfolding_all decide)
  · have h := (hcA 0 (by with_unfolding_all decide) (1, 0, 0) (by with_unfolding_all decide) (by with_unfolding_all decide)
      (by with_unfolding_all decide)).2 (fun ik hik => by
        have hl : p0.kpoints.length = 1 := rfl
        rw [hl] at hik
        have hik0 : ik = 0 := by omega
        subst hik0
        have hv : p0.kpoints.get ⟨0, hik⟩ = [0, 0, 0] := rfl
        rw [hv]
        with_unfolding_all decide)
    exact h
  · have h := (hcB 0 (by with_unfolding_all decide) (0, 0, 0) (by with_unfolding_all decide) (by with_unfolding_all decide)
      (by with_unfolding_all decide)).1 0
      ⟨by with_unfolding_all decide, by with_unfolding_all decide, fun jq hjq hlt => by
        have hl : p0.qpoints.length = 1 := rfl
        rw [hl] at hjq
        exact absurd hjq (by omega)⟩
    exact h.trans (by with_unfolding_all decide)

/-- C10: when `fill_value` is None (the default, and the value used by the two
interpolator builders) and the stored k/q points do not cover every cell of
the grid box, the uncovered cells of `insert_a_inbox` / `insert_b_inbox` come
from `np.empty`: the returned boxes and the interpolators built over them
depend on the uninitialized memory contents (`junk`), so they are not a
deterministic function of the file contents. -/
theorem insert_none_nondeterministic
    (p : Polaron) (g : Idx3) (sh : List (List ℚ))
    (hok : p.ngkpt_and_shifts = .ok (g, sh)) (hnb : 0 < p.nb)
    (cellA : Idx3) (hA1 : cellA.1 < g.1) (hA2 : cellA.2.1 < g.2.1)
    (hA3 : cellA.2.2 < g.2.2) (huncovA : NoHit p.kpoints g cellA)
    (hnat : 0 < p.varpeq.natom)
    (cellB : Idx3) (hB1 : cellB.1 < p.varpeq.ngqpt.1)
    (hB2 : cellB.2.1 < p.varpeq.ngqpt.2.1)
    (hB3 : cellB.2.2 < p.varpeq.ngqpt.2.2)
    (huncovB : NoHit p.qpoints p.varpeq.ngqpt cellB) :
    ∃ junk1 junk2 : ℕ → Idx3 → Cplx,
      p.insert_a_inbox junk1 none ≠ p.insert_a_inbox junk2 none ∧
      p.get_a2_interpolator junk1 ≠ p.get_a2_interpolator junk2 ∧
      p.insert_b_inbox junk1 none ≠ p.insert_b_inbox junk2 none ∧
      p.get_b2_interpolator junk1 ≠ p.get_b2_interpolator junk2 := by
  refine ⟨fun _ _ => (0, 0), fun _ _ => (1, 0), ?_, ?_, ?_, ?_⟩
  · intro h
    have e1 : p.insert_a_inbox (fun _ _ => ((0 : ℚ), (0 : ℚ))) none =
        .ok (mkBox p.nb g (insert_a_fun p (fun _ _ => (0, 0)) none g), g, sh) := by
      simp [Polaron.insert_a_inbox, hok]
    have e2 : p.insert_a_inbox (fun _ _ => ((1 : ℚ), (0 : ℚ))) none =
        .ok (mkBox p.nb g (insert_a_fun p (fun _ _ => (1, 0)) none g), g, sh) := by
      simp [Polaron.insert_a_inbox, hok]
    rw [e1, e2] at h
    have hbox := congrArg (fun e =>
      match e with
      | Except.ok (box, _, _) => boxGet box 0 cellA
      | Except.error _ => (0, 0)) h
    simp only at hbox
    rw [boxGet_mkBox _ _ _ _ _ hnb hA1 hA2 hA3,
      boxGet_mkBox _ _ _ _ _ hnb hA1 hA2 hA3] at hbox
    have v1 : insert_a_fun p (fun _ _ => ((0 : ℚ), (0 : ℚ))) none g 0 cellA = (0, 0) :=
      scatter_points_no_hit _ _ _ _ _ _ huncovA
    have v2 : insert_a_fun p (fun _ _ => ((1 : ℚ), (0 : ℚ))) none g 0 cellA = (1, 0) :=
      scatter_points_no_hit _ _ _ _ _ _ huncovA
    rw [v1, v2] at hbox
    exact absurd (congrArg Prod.fst hbox) (by norm_num)
  · intro h
    have e1 : p.get_a2_interpolator (fun _ _ => ((0 : ℚ), (0 : ℚ))) =
        .ok ⟨p.nb, g, fun ib cell =>
          cmod2 (insert_a_fun p (fun _ _ => (0, 0)) none g ib cell)⟩ := by
      simp [Polaron.get_a2_interpolator, hok]
    have e2 : p.get_a2_interpolator (fun _ _ => ((1 : ℚ), (0 : ℚ))) =
        .ok ⟨p.nb, g, fun ib cell =>
          cmod2 (insert_a_fun p (fun _ _ => (1, 0)) none g ib cell)⟩ := by
      simp [Polaron.get_a2_interpolator, hok]
    rw [e1, e2] at h
    have hgrid := congrArg (fun e =>
      match e with
      | Except.ok itp => BzRegularGridInterpolator.grid itp 0 cellA
      | Except.error _ => 0) h
    simp only at hgrid
    have v1 : insert_a_fun p (fun _ _ => ((0 : ℚ), (0 : ℚ))) none g 0 cellA = (0, 0) :=
      scatter_points_no_hit _ _ _ _ _ _ huncovA
    have v2 : insert_a_fun p (fun _ _ => ((1 : ℚ), (0 : ℚ))) none g 0 cellA = (1, 0) :=
      scatter_points_no_hit _ _ _ _ _ _ huncovA
    rw [v1, v2] at hgrid
    exact absurd hgrid (by norm_num [cmod2])
  · intro h
    have hbox := congrArg (fun z => boxGet z.1 0 cellB) h
    simp only [Polaron.insert_b_inbox] at hbox
    rw [boxGet_mkBox _ _ _ _ _ (by omega) hB1 hB2 hB3,
      boxGet_mkBox _ _ _ _ _ (by omega) hB1 hB2 hB3] at hbox
    have v1 : insert_b_fun p (fun _ _ => ((0 : ℚ), (0 : ℚ))) none 0 cellB = (0, 0) :=
      scatter_points_no_hit _ _ _ _ _ _ huncovB
    have v2 : insert_b_fun p (fun _ _ => ((1 : ℚ), (0 : ℚ))) none 0 cellB = (1, 0) :=
      scatter_points_no_hit _ _ _ _ _ _ huncovB
    rw [v1, v2] at hbox
    exact absurd (congrArg Prod.fst hbox) (by norm_num)
  · intro h
    have hgrid := congrArg (fun itp => BzRegularGridInterpolator.grid itp 0 cellB) h
    simp only [Polaron.get_b2_interpolator] at hgrid
    have v1 : insert_b_fun p (fun _ _ => ((0 : ℚ), (0 : ℚ))) none 0 cellB = (0, 0) :=
      scatter_points_no_hit _ _ _ _ _ _ huncovB
    have v2 : insert_b_fun p (fun _ _ => ((1 : ℚ), (0 : ℚ))) none 0 cellB = (1, 0) :=
      scatter_points_no_hit _ _ _ _ _ _ huncovB
    rw [v1, v2] at hgrid
    exact absurd hgrid (by norm_num [cmod2])

/-- A polaron with an empty k/q point list (full filtering): no cell of the
2x1x1 k-mesh or 1x1x1 q-mesh is covered. -/
def pEmpty : Polaron :=
  { spin := 0, nb := 1, nk := 0, nq := 0, bstart := 0, bstop := 1,
    kpoints := [], qpoints := [], a_kn := [], b_qnu := [], varpeq := r0 }

/-- Witness for C10 at the concrete polaron `pEmpty`. -/
theorem insert_none_nondeterministic_witness :
    ∃ junk1 junk2 : ℕ → Idx3 → Cplx,
      pEmpty.insert_a_inbox junk1 none ≠ pEmpty.insert_a_inbox junk2 none ∧
      pEmpty.get_a2_interpolator junk1 ≠ pEmpty.get_a2_interpolator junk2 ∧
      pEmpty.insert_b_inbox junk1 none ≠ pEmpty.insert_b_inbox junk2 none ∧
      pEmpty.get_b2_interpolator junk1 ≠ pEmpty.get_b2_interpolator junk2 :=
  insert_none_nondeterministic pEmpty (2, 1, 1) [[0, 0, 0]] rfl (by decide)
    (0, 0, 0) (by decide) (by decide) (by decide)
    (fun ik hik => absurd hik (by simp [pEmpty]))
    (by decide) (0, 0, 0) (by decide) (by decide) (by decide)
    (fun iq hiq => absurd hiq (by simp [pEmpty]))

theorem eval_grid_reproduces (K : List (List ℚ)) (A : List (List Cplx))
    (g : Idx3) (nb : ℕ) (init : ℕ → Idx3 → Cplx) (hlen : K.length = A.length)
    (harow : ∀ row ∈ A, row.length = nb)
    (hnodup : (kpoints_indices K g).Nodup) (ik : ℕ) (hik : ik < K.length) :
    (List.range nb).map (fun ib =>
        cmod2 (scatterUpd (init ib) ((kpoints_indices K g).zip (column A ib))
          (kpt_index g (K.getD ik [])))) =
      (A.getD ik []).map cmod2 := by
  have hikA : ik < A.length := hlen ▸ hik
  have hgetD : K.getD ik [] = K.get ⟨ik, hik⟩ := by
    rw [List.getD_eq_getElem _ _ hik]
    simp [List.get_eq_getElem]
  have hgetDA : A.getD ik [] = A.get ⟨ik, hikA⟩ := by
    rw [List.getD_eq_getElem _ _ hikA]
    simp [List.get_eq_getElem]
  have hrowlen : (A.get ⟨ik, hikA⟩).length = nb :=
    harow _ (List.get_mem A ik hikA)
  have hhit : kpt_index g (K.get ⟨ik, hik⟩) = kpt_index g (K.getD ik []) := by
    rw [hgetD]
  have hlast : ∀ jk (hjk : jk < K.length), ik < jk →
      kpt_index g (K.get ⟨jk, hjk⟩) ≠ kpt_index g (K.getD ik []) := by
    intro jk hjk hij hcell
    have hjk' : jk < (kpoints_indices K g).length := by
      simpa [kpoints_indices] using hjk
    have hik' : ik < (kpoints_indices K g).length := by
      simpa [kpoints_indices] using hik
    have heq : (kpoints_indices K g).get ⟨jk, hjk'⟩ =
        (kpoints_indices K g).get ⟨ik, hik'⟩ := by
      simp only [kpoints_indices, List.get_eq_getElem, List.getElem_map]
      rw [← List.get_eq_getElem K ⟨jk, hjk⟩, ← List.get_eq_getElem K ⟨ik, hik⟩,
        hcell, hgetD]
    have hfin : (⟨jk, hjk'⟩ : Fin (kpoints_indices K g).length) = ⟨ik, hik'⟩ :=
      hnodup.get_inj_iff.mp heq
    have : jk = ik := congrArg Fin.val hfin
    omega
  apply List.ext_getElem
  · simp only [List.length_map, List.length_range, hgetDA, hrowlen]
  · intro i h1 h2
    have hi : i < nb := by simpa using h1
    have hval := scatter_points_last_hit (init i) K A g i
      (kpt_index g (K.getD ik [])) ik hik hlen hhit hlast
    have hilen : i < (A.get ⟨ik, hlen ▸ hik⟩).length := by
      have hr : (A.get ⟨ik, hlen ▸ hik⟩).length = nb := hrowlen
      omega
    have hilen2 : i < (A.getD ik []).length := by
      rw [hgetDA, hrowlen]; exact hi
    have hgd : (A.getD ik []).get ⟨i, hilen2⟩ =
        (A.get ⟨ik, hlen ▸ hik⟩).getD i (0, 0) := by
      rw [List.getD_eq_getElem _ _ hilen]
      have he : A.getD ik [] = A.get ⟨ik, hlen ▸ hik⟩ := hgetDA
      simp only [List.get_eq_getElem]
      exact List.getElem_of_eq he hilen2
    simp only [List.getElem_map, List.getElem_range]
    rw [hval, ← List.get_eq_getElem (A.getD ik []) ⟨i, hilen2⟩, hgd]

/-- C3: `get_a2_interpolator` (resp. `get_b2_interpolator`) returns a
regular-grid interpolator built over the element-wise squared modulus of the
box produced by `insert_a_inbox` (resp. `insert_b_inbox`), so that when the
stored k-points (q-points) cover every cell of the mesh — with distinct grid
indices, as distinct mesh points have — evaluating the interpolator at any
stored k-point (q-point) reproduces `|a_kn[ik, :]|^2` (`|b_qnu[iq, :]|^2`),
and it can be evaluated at arbitrary k/q points (totality clauses). -/
theorem interpolators_reproduce_spec
    (p : Polaron) (junk : ℕ → Idx3 → Cplx) (g : Idx3) (sh : List (List ℚ))
    (hok : p.ngkpt_and_shifts = .ok (g, sh))
    (hk : p.kpoints.length = p.nk) (ha : p.a_kn.length = p.nk)
    (harow : ∀ row ∈ p.a_kn, row.length = p.nb)
    (hcovA : ∀ cell : Idx3, cell.1 < g.1 → cell.2.1 < g.2.1 →
      cell.2.2 < g.2.2 → ∃ ik, ∃ hik : ik < p.kpoints.length,
        kpt_index g (p.kpoints.get ⟨ik, hik⟩) = cell)
    (hnodupA : (kpoints_indices p.kpoints g).Nodup)
    (hq : p.qpoints.length = p.nq) (hb : p.b_qnu.length = p.nq)
    (hbrow : ∀ row ∈ p.b_qnu, row.length = 3 * p.varpeq.natom)
    (hcovB : ∀ cell : Idx3, cell.1 < p.varpeq.ngqpt.1 →
      cell.2.1 < p.varpeq.ngqpt.2.1 → cell.2.2 < p.varpeq.ngqpt.2.2 →
      ∃ iq, ∃ hiq : iq < p.qpoints.length,
        kpt_index p.varpeq.ngqpt (p.qpoints.get ⟨iq, hiq⟩) = cell)
    (hnodupB : (kpoints_indices p.qpoints p.varpeq.ngqpt).Nodup) :
    ∃ itpA : BzRegularGridInterpolator,
      p.get_a2_interpolator junk = .ok itpA ∧
      (∀ ib cell, itpA.grid ib cell =
        cmod2 (insert_a_fun p junk none g ib cell)) ∧
      (∀ ik, ik < p.nk →
        itpA.eval_kpoint (p.kpoints.getD ik []) =
          (p.a_kn.getD ik []).map cmod2) ∧
      (∀ k : List ℚ, (itpA.eval_kpoint k).length = p.nb) ∧
      (p.get_b2_interpolator junk).nb = 3 * p.varpeq.natom ∧
      (∀ nu cell, (p.get_b2_interpolator junk).grid nu cell =
        cmod2 (insert_b_fun p junk none nu cell)) ∧
      (∀ iq, iq < p.nq →
        (p.get_b2_interpolator junk).eval_kpoint (p.qpoints.getD iq []) =
          (p.b_qnu.getD iq []).map cmod2) ∧
      (∀ k : List ℚ, ((p.get_b2_interpolator junk).eval_kpoint k).length =
        3 * p.varpeq.natom) := by
  refine ⟨⟨p.nb, g, fun ib cell =>
      cmod2 (insert_a_fun p junk none g ib cell)⟩, ?_, fun _ _ => rfl, ?_,
    ?_, rfl, fun _ _ => rfl, ?_, ?_⟩
  · simp [Polaron.get_a2_interpolator, hok]
  · intro ik hik
    have hik' : ik < p.kpoints.length := hk ▸ hik
    have := eval_grid_reproduces p.kpoints p.a_kn g p.nb (fun ib => junk ib)
      (hk.trans ha.symm) harow hnodupA ik hik'
    simpa [BzRegularGridInterpolator.eval_kpoint, insert_a_fun] using this
  · intro k
    simp [BzRegularGridInterpolator.eval_kpoint]
  · intro iq hiq
    have hiq' : iq < p.qpoints.length := hq ▸ hiq
    have := eval_grid_reproduces p.qpoints p.b_qnu p.varpeq.ngqpt
      (3 * p.varpeq.natom) (fun nu => junk nu) (hq.trans hb.symm) hbrow
      hnodupB iq hiq'
    simpa [BzRegularGridInterpolator.eval_kpoint, Polaron.get_b2_interpolator,
      insert_b_fun] using this
  · intro k
    simp [BzRegularGridInterpolator.eval_kpoint, Polaron.get_b2_interpolator]

/-- A reader like `r0` but with a 1x1x1 k-mesh, so that the single stored
k-point (and q-point) covers every cell of its mesh. -/
def r1 : VarpeqReader := { r0 with mpdivs := some (1, 1, 1) }

/-- The polaron of `r1` for spin 0. -/
def p1 : Polaron := Polaron.from_varpeq r1 0

/-- Witness for C3 at the concrete polaron `p1`: the interpolators reproduce
the squared moduli of the stored coefficients at the stored points. -/
theorem interpolators_reproduce_spec_witness :
    ∃ itpA : BzRegularGridInterpolator,
      p1.get_a2_interpolator junk0 = .ok itpA ∧
      itpA.eval_kpoint [0, 0, 0] = [1] ∧
      (p1.get_b2_interpolator junk0).eval_kpoint [0, 0, 0] = [9, 0, 0] := by
  obtain ⟨itpA, hoki, hgrid, hrepA, htotA, hnbB, hgridB, hrepB, htotB⟩ :=
    interpolators_reproduce_spec p1 junk0 (1, 1, 1) [[0, 0, 0]] rfl
      (by decide) (by decide) (by decide)
      (fun cell h1 h2 h3 => by
        obtain ⟨c1, c2, c3⟩ := cell
        dsimp only at h1 h2 h3
        have e1 : c1 = 0 := by omega
        have e2 : c2 = 0 := by omega
        have e3 : c3 = 0 := by omega
        subst e1; subst e2; subst e3
        exact ⟨0, by decide, by with_unfolding_all decide⟩)
      (by with_unfolding_all decide)
      (by decide) (by decide) (by decide)
      (fun cell h1 h2 h3 => by
        obtain ⟨c1, c2, c3⟩ := cell
        have hng : p1.varpeq.ngqpt = (1, 1, 1) := rfl
        rw [hng] at h1 h2 h3
        dsimp only at h1 h2 h3
        have e1 : c1 = 0 := by omega
        have e2 : c2 = 0 := by omega
        have e3 : c3 = 0 := by omega
        subst e1; subst e2; subst e3
        exact ⟨0, by decide, by with_unfolding_all decide⟩)
      (by with_unfolding_all decide)
  refine ⟨itpA, hoki, ?_, ?_⟩
  · have h := hrepA 0 (by decide)
    have h2 : p1.kpoints.getD 0 [] = [0, 0, 0] := rfl
    rw [h2] at h
    exact h.trans (by with_unfolding_all decide)
  · have h := hrepB 0 (by decide)
    have h2 : p1.qpoints.getD 0 [] = [0, 0, 0] := rfl
    rw [h2] at h
    exact h.trans (by with_unfolding_all decide)

/-- C9: for every Polaron and every filepath, `write_a2_bxsf` and
`write_b2_bxsf` raise `NameError` before any file is written (`num_states`
unbound in `write_a2_bxsf`, `nqkpt` unbound in `write_b2_bxsf`), so the BXSF
export never succeeds and the file system is left unchanged by these calls
(the write lists are empty on every path). -/
theorem write_bxsf_raises_nameError
    (p : Polaron) (junk : ℕ → Idx3 → Cplx) (fp : String) :
    (p.write_a2_bxsf junk fp).1 = [] ∧
    (p.write_b2_bxsf junk fp).1 = [] ∧
    (∀ gs, p.ngkpt_and_shifts = .ok gs →
      (p.write_a2_bxsf junk fp).2 = .error (.nameError "num_states")) ∧
    (p.write_b2_bxsf junk fp).2 = .error (.nameError "nqkpt") := by
  refine ⟨?_, rfl, ?_, rfl⟩
  · unfold Polaron.write_a2_bxsf
    cases h : p.insert_a_inbox junk (some (0, 0)) <;> simp
  · intro gs hok
    obtain ⟨g, sh⟩ := gs
    have hins : p.insert_a_inbox junk (some (0, 0)) =
        .ok (mkBox p.nb g (insert_a_fun p junk (some (0, 0)) g), g, sh) := by
      simp [Polaron.insert_a_inbox, hok]
    unfold Polaron.write_a2_bxsf
    rw [hins]

/-- Witness for C9 at the concrete polaron `p0`. -/
theorem write_bxsf_raises_nameError_witness :
    (p0.write_a2_bxsf junk0 "out.bxsf").1 = [] ∧
    (p0.write_a2_bxsf junk0 "out.bxsf").2 = .error (.nameError "num_states") ∧
    (p0.write_b2_bxsf junk0 "out.bxsf").1 = [] ∧
    (p0.write_b2_bxsf junk0 "out.bxsf").2 = .error (.nameError "nqkpt") := by
  obtain ⟨h1, h2, h3, h4⟩ := write_bxsf_raises_nameError p0 junk0 "out.bxsf"
  exact ⟨h1, h3 ((2, 1, 1), [[0, 0, 0]]) rfl, h2, h4⟩

/-- C5: `get_last_iteration_dict_ev(spin)` returns a dictionary with exactly
the five keys E_pol, E_el, E_ph, elph, epsilon, whose values are the
components of the convergence record `iter_rec[spin, nstep2cv[spin]-1, :]`
multiplied by the Hartree-to-eV conversion factor (the file schema stores six
components per record; `dict(zip(..))` pairs the five keys with the first
five). -/
theorem last_iteration_dict_spec (r : VarpeqReader) (spin : ℕ)
    (h6 : ((r.iter_rec.getD spin []).getD
      (r.nstep2cv.getD spin 0 - 1) []).length = 6) :
    (get_last_iteration_dict_ev r spin).map Prod.fst = entryNames ∧
    (get_last_iteration_dict_ev r spin).length = 5 ∧
    ∀ j, j < 5 →
      (get_last_iteration_dict_ev r spin).getD j ("", 0) =
        (entryNames.getD j "",
          ((r.iter_rec.getD spin []).getD
            (r.nstep2cv.getD spin 0 - 1) []).getD j 0 * Ha_eV) := by
  have hlen5 : entryNames.length = 5 := rfl
  have hd : get_last_iteration_dict_ev r spin =
      entryNames.zip (((r.iter_rec.getD spin []).getD
        (r.nstep2cv.getD spin 0 - 1) []).map (fun v => v * Ha_eV)) := rfl
  generalize hG : (r.iter_rec.getD spin []).getD
    (r.nstep2cv.getD spin 0 - 1) [] = L at h6 hd ⊢
  refine ⟨?_, ?_, ?_⟩
  · rw [hd]
    apply List.map_fst_zip
    simp only [List.length_map, hlen5, h6]
    omega
  · rw [hd]
    simp only [List.length_zip, List.length_map, hlen5, h6]
    omega
  · intro j hj
    have hjz : j < (entryNames.zip (L.map (fun v => v * Ha_eV))).length := by
      simp only [List.length_zip, List.length_map, hlen5, h6]
      omega
    have hje : j < entryNames.length := by omega
    have hjL : j < L.length := by omega
    rw [hd, List.getD_eq_getElem _ _ hjz, List.getElem_zip]
    rw [List.getD_eq_getElem _ _ hje, List.getD_eq_getElem _ _ hjL]
    simp

/-- Witness for C5 at the concrete reader `r0`, spin 0 (the last recorded
iteration is `iter_rec[0][1] = [2, 3, 4, 5, 6, 7]`). -/
theorem last_iteration_dict_spec_witness :
    (get_last_iteration_dict_ev r0 0).map Prod.fst = entryNames ∧
    (get_last_iteration_dict_ev r0 0).getD 0 ("", 0) = ("E_pol", 2 * Ha_eV) := by
  obtain ⟨h1, h2, h3⟩ := last_iteration_dict_spec r0 0 (by decide)
  exact ⟨h1, h3 0 (by decide)⟩

/-- Well-formedness of the raw file arrays for spin `i`, following the netcdf
schema: the per-spin counts fit inside the padded arrays, coordinate rows have
three entries, `a_spin` rows have at least `nb` bands, `b_spin` rows have
exactly `3*natom` modes, and the Fortran band range starts at 1 or above. -/
def SpinWellFormed (r : VarpeqReader) (i : ℕ) : Prop :=
  r.nk_spin.getD i 0 ≤ (r.kpts_spin.getD i []).length ∧
  (∀ row ∈ r.kpts_spin.getD i [], row.length = 3) ∧
  r.nq_spin.getD i 0 ≤ (r.qpts_spin.getD i []).length ∧
  (∀ row ∈ r.qpts_spin.getD i [], row.length = 3) ∧
  r.nk_spin.getD i 0 ≤ (r.a_spin.getD i []).length ∧
  (∀ row ∈ r.a_spin.getD i [], r.nb_spin.getD i 0 ≤ row.length) ∧
  r.nq_spin.getD i 0 ≤ (r.b_spin.getD i []).length ∧
  (∀ row ∈ r.b_spin.getD i [], row.length = 3 * r.natom) ∧
  i < r.brange_spin_raw.length

instance (r : VarpeqReader) (i : ℕ) : Decidable (SpinWellFormed r i) := by
  unfold SpinWellFormed
  infer_instance

/-- C7: for every open VarpeqFile (well-formed per the file schema),
`polaron_spin` is a list with exactly `nsppol` elements whose element at
position `i` is a Polaron with `spin = i`, `kpoints` of shape (nk, 3),
`qpoints` of shape (nq, 3), `a_kn` of shape (nk, nb), `b_qnu` of shape
(nq, 3*natom), and `nb = bstop - bstart` after the Fortran-to-C band-range
conversion performed by the reader. -/
theorem polaron_spin_shapes_spec (r : VarpeqReader)
    (hwf : ∀ i, i < r.nsppol → SpinWellFormed r i) :
    (polaron_spin r).length = r.nsppol ∧
    ∀ i, i < r.nsppol →
      (polaron_spin r).getD i default = Polaron.from_varpeq r i ∧
      (Polaron.from_varpeq r i).spin = i ∧
      (Polaron.from_varpeq r i).kpoints.length = (Polaron.from_varpeq r i).nk ∧
      (∀ row ∈ (Polaron.from_varpeq r i).kpoints, row.length = 3) ∧
      (Polaron.from_varpeq r i).qpoints.length = (Polaron.from_varpeq r i).nq ∧
      (∀ row ∈ (Polaron.from_varpeq r i).qpoints, row.length = 3) ∧
      (Polaron.from_varpeq r i).a_kn.length = (Polaron.from_varpeq r i).nk ∧
      (∀ row ∈ (Polaron.from_varpeq r i).a_kn,
        row.length = (Polaron.from_varpeq r i).nb) ∧
      (Polaron.from_varpeq r i).b_qnu.length = (Polaron.from_varpeq r i).nq ∧
      (∀ row ∈ (Polaron.from_varpeq r i).b_qnu, row.length = 3 * r.natom) ∧
      (Polaron.from_varpeq r i).nb =
        (Polaron.from_varpeq r i).bstop - (Polaron.from_varpeq r i).bstart := by
  refine ⟨by simp [polaron_spin], ?_⟩
  intro i hi
  obtain ⟨hnk, hk3, hnq, hq3, hna, hnab, hnbq, hbrow, hbr⟩ := hwf i hi
  refine ⟨getD_map_range _ _ _ _ hi, rfl, ?_, ?_, ?_, ?_, ?_, ?_, ?_, ?_, ?_⟩
  · simp only [Polaron.from_varpeq, List.length_take]
    omega
  · intro row hrow
    exact hk3 row (List.take_subset _ _ hrow)
  · simp only [Polaron.from_varpeq, List.length_take]
    omega
  · intro row hrow
    exact hq3 row (List.take_subset _ _ hrow)
  · simp only [Polaron.from_varpeq, List.length_map, List.length_take]
    omega
  · intro row hrow
    simp only [Polaron.from_varpeq, List.mem_map] at hrow
    obtain ⟨row0, hrow0, rfl⟩ := hrow
    have hle := hnab row0 (List.take_subset _ _ hrow0)
    simp only [Polaron.from_varpeq, List.length_take]
    omega
  · simp only [Polaron.from_varpeq, List.length_take]
    omega
  · intro row hrow
    exact hbrow row (List.take_subset _ _ hrow)
  · have hbl : i < r.brange_spin.length := by
      simpa [VarpeqReader.brange_spin] using hbr
    have hnbl : i < r.nb_spin.length := by
      simpa [VarpeqReader.nb_spin, VarpeqReader.brange_spin] using hbr
    show r.nb_spin.getD i 0 =
      (r.brange_spin.getD i (0, 0)).2 - (r.brange_spin.getD i (0, 0)).1
    rw [List.getD_eq_getElem _ _ hnbl, List.getD_eq_getElem _ _ hbl]
    simp [VarpeqReader.nb_spin]

/-- Witness for C7 at the concrete reader `r0`. -/
theorem polaron_spin_shapes_spec_witness :
    (polaron_spin r0).length = 1 ∧
    (polaron_spin r0).getD 0 default = p0 ∧
    p0.spin = 0 ∧ p0.kpoints.length = p0.nk ∧
    p0.a_kn.length = p0.nk ∧ (∀ row ∈ p0.a_kn, row.length = p0.nb) ∧
    p0.b_qnu.length = p0.nq ∧ p0.nb = p0.bstop - p0.bstart := by
  obtain ⟨hlen, hall⟩ := polaron_spin_shapes_spec r0 (by decide)
  obtain ⟨hgd, hspin, hkl, hk3, hql, hq3, hal, har, hbl, hbr, hnb⟩ :=
    hall 0 (by decide)
  exact ⟨hlen, hgd, hspin, hkl, hal, har, hbl, hnb⟩

/-- A reader whose (external) ebands object has two spins. -/
def r2 : VarpeqReader := { r0 with nsppol := 2, ebands_nsppol := 2 }

/-- C8 counterexample: on a file whose ebands has `nsppol = 2`,
`get_title_spin` does not raise `NameError` (the f-string evaluates the
missing attribute `self.spin` first, an `AttributeError`), refuting the claim
that it raises `NameError` for every spin argument. -/
theorem get_title_spin_not_nameError_cex :
    raisesNameError (get_title_spin r2 0) = false := rfl

/-- C8 amended: `get_title_spin` always raises — `NameError` on the unbound
local `with_gaps` when `ebands.nsppol == 1`, and `AttributeError` on the
missing attribute `self.spin` otherwise; consequently `plot_scf_cycle`, which
evaluates `get_title_spin(spin)` for each spin, always raises (for any file
with at least one spin) and never returns a figure. -/
theorem get_title_spin_raises_amended (r : VarpeqReader) (spin : ℕ) :
    (r.ebands_nsppol = 1 →
      get_title_spin r spin = .error (.nameError "with_gaps")) ∧
    (r.ebands_nsppol ≠ 1 →
      get_title_spin r spin = .error (.attrError "spin")) ∧
    (1 ≤ r.nsppol → ∃ e, plot_scf_cycle r = .error e) := by
  have herr : ∀ s, ∃ e, get_title_spin r s = .error e := by
    intro s
    by_cases hc : r.ebands_nsppol = 1
    · exact ⟨.nameError "with_gaps", by unfold get_title_spin; rw [if_pos hc]; rfl⟩
    · exact ⟨.attrError "spin", by unfold get_title_spin; rw [if_neg hc]; rfl⟩
  refine ⟨fun h => by unfold get_title_spin; rw [if_pos h]; rfl,
    fun h => by unfold get_title_spin; rw [if_neg h]; rfl, fun h => ?_⟩
  obtain ⟨e0, he0⟩ := herr 0
  refine ⟨e0, ?_⟩
  obtain ⟨n, hn⟩ : ∃ n, r.nsppol = n + 1 := ⟨r.nsppol - 1, by omega⟩
  unfold plot_scf_cycle
  rw [hn, List.range_succ_eq_map]
  have hstep : ((0 :: List.map Nat.succ (List.range n)).forM fun spin =>
      (do let _title ← get_title_spin r spin
          pure PUnit.unit : Except PyErr PUnit)) =
      (do let _title ← get_title_spin r 0
          pure PUnit.unit : Except PyErr PUnit) >>= fun _ =>
        (List.map Nat.succ (List.range n)).forM fun spin =>
          (do let _title ← get_title_spin r spin
              pure PUnit.unit : Except PyErr PUnit) := rfl
  rw [hstep, he0]
  rfl

/-- Witness for C8 amended, at the concrete two-spin reader `r2`. -/
theorem get_title_spin_raises_amended_witness :
    get_title_spin r2 0 = .error (.attrError "spin") ∧
    (∃ e, plot_scf_cycle r2 = .error e) := by
  obtain ⟨h1, h2, h3⟩ := get_title_spin_raises_amended r2 0
  exact ⟨h2 (by decide), h3 (by decide)⟩

/-- C4: for every collection of VARPEQ files held by a robot, the per-file
entries of the arrays returned by `get_kdata_spin` are ordered by decreasing
mesh density: the `nk_tot` sequence (`np.prod` of each file's k-mesh
divisions) is non-increasing, and every other per-file array is aligned with
it (same length, built over the same sorted file list). -/
theorem kdata_sorted_desc (robot : List AbiFile) :
    List.Sorted (· ≥ ·) (kdata_nk_tot robot) ∧
    ∀ spin name,
      (kdata_entry robot spin name).length = (kdata_nk_tot robot).length ∧
      (kdata_xs robot).length = (kdata_nk_tot robot).length ∧
      (kdata_ngkpt robot).length = (kdata_nk_tot robot).length := by
  constructor
  · have hs : List.Sorted (fun a b : AbiFile => sort_key b ≤ sort_key a)
        (sortFiles robot) := List.sorted_insertionSort _ robot
    unfold kdata_nk_tot
    rw [List.Sorted, List.pairwise_map]
    exact hs
  · intro spin name
    simp [kdata_entry, kdata_xs, kdata_ngkpt, kdata_nk_tot]

/-- C2: for every spin and every npts from 2 up to the number of files, the
row labelled npts of `get_makov_payne_df_spin` holds, for each of the five
energy entries, the value at x = 0 of the degree-1 least-squares fit through
the first npts (xs_inv_bohr, energy) pairs of `get_kdata_spin`; the index is
exactly 2, 3, ..., number of files and is named 'npts'. -/
theorem makov_payne_intercept_spec (robot : List AbiFile) (spin : ℕ)
    (name : String) (hname : name ∈ entryNames) (npts : ℕ)
    (h2 : 2 ≤ npts) (hn : npts ≤ robot.length) :
    (makov_payne_col robot spin name).getD (npts - 2) 0 =
      polyval1 (polyfit1 ((kdata_xs robot).take npts)
        ((kdata_entry robot spin name).take npts)) 0 ∧
    (makov_payne_index robot).getD (npts - 2) 0 = npts ∧
    makov_payne_index robot = List.range' 2 (robot.length - 1) ∧
    makov_payne_index_name = "npts" := by
  have hxlen : (kdata_xs robot).length = robot.length := by
    simp [kdata_xs, sortFiles, List.length_insertionSort]
  have hidx : npts - 2 < robot.length - 1 := by omega
  refine ⟨?_, ?_, ?_, rfl⟩
  · have hb : npts - 2 < ((List.range' 1 ((kdata_xs robot).length - 1)).map
        (fun nn => polyval1 (polyfit1 ((kdata_xs robot).take (nn + 1))
          ((kdata_entry robot spin name).take (nn + 1))) 0)).length := by
      simp [hxlen]
      omega
    show (makov_payne_col robot spin name).getD (npts - 2) 0 = _
    unfold makov_payne_col
    rw [List.getD_eq_getElem _ _ hb]
    rw [List.getElem_map, List.getElem_range'_1]
    have hnn : 1 + (npts - 2) + 1 = npts := by omega
    rw [hnn]
  · have hb : npts - 2 < ((List.range' 1 ((kdata_xs robot).length - 1)).map
        (fun i => i + 1)).length := by
      simp [hxlen]
      omega
    unfold makov_payne_index
    rw [List.getD_eq_getElem _ _ hb]
    rw [List.getElem_map, List.getElem_range'_1]
    omega
  · unfold makov_payne_index
    rw [hxlen]
    have hf : (fun i => i + 1) = (fun i => 1 + i) := by
      funext i
      omega
    rw [hf, List.map_add_range']

/-- Two concrete robot files with different k-mesh densities (2x1x1 vs
1x1x1); the robot must order the denser one first. -/
def fA : AbiFile := { r := r0, cbrt_vol := 1 }

/-- The coarser-mesh file of the concrete robot. -/
def fB : AbiFile := { r := r1, cbrt_vol := 1 }

/-- A concrete robot holding the coarse file first. -/
def robot2 : List AbiFile := [fB, fA]

/-- Witness for C2 at the concrete two-file robot, npts = 2, entry E_pol. -/
theorem makov_payne_intercept_spec_witness :
    (makov_payne_col robot2 0 "E_pol").getD 0 0 =
      polyval1 (polyfit1 ((kdata_xs robot2).take 2)
        ((kdata_entry robot2 0 "E_pol").take 2)) 0 ∧
    (makov_payne_index robot2).getD 0 0 = 2 ∧
    makov_payne_index robot2 = List.range' 2 1 ∧
    makov_payne_index_name = "npts" :=
  makov_payne_intercept_spec robot2 0 "E_pol" (by decide) 2 (by decide)
    (by decide)

/-- C6 counterexample: `write_notebook` does create a file (it delegates to
`_write_nb_nbpath`, which writes the notebook and returns its path), so the
claim that no public operation creates or modifies a file fails on the module
as it stands. -/
theorem write_notebook_creates_file_cex :
    (file_write_notebook r0 "out.ipynb").1 ≠ [] := by decide

/-- C6 amended: apart from the notebook writers (`VarpeqFile.write_notebook`
and `VarpeqRobot.write_notebook`, which create the notebook file at `nbpath`),
no module operation writes to persistent storage: in particular the two BXSF
exporters raise before reaching their write call and leave the file system
unchanged, and the remaining operations are pure reads. -/
theorem module_write_effects_amended (p : Polaron) (junk : ℕ → Idx3 → Cplx)
    (fp : String) (r : VarpeqReader) (robot : List AbiFile) (nbpath : String) :
    (p.write_a2_bxsf junk fp).1 = [] ∧
    (p.write_b2_bxsf junk fp).1 = [] ∧
    (file_write_notebook r nbpath).1 = [nbpath] ∧
    (robot_write_notebook robot nbpath).1 = [nbpath] := by
  refine ⟨?_, rfl, rfl, rfl⟩
  unfold Polaron.write_a2_bxsf
  cases h : p.insert_a_inbox junk (some (0, 0)) <;> simp

end Varpeq
